import Mathlib

/-!
# Verification of the mashos-api time/calendar core

A shallow embedding of the repository's time subsystem:
* an ECMAScript-style model of epoch-millisecond instants and local calendar
  fields (the repository runs on JS `Date`; the model fixes the local UTC
  offset to zero, models no DST, takes constructor years literally — the
  historical two-digit-year remapping and `TimeClip` range cap are not
  modeled for calendar arithmetic — since the spec's calendar claims are
  about idealized local-calendar semantics),
* `mywebCore` period/trigger functions,
* `flowerCore` `annotate`/`analyze`,
* `timeService` freeze resolution and the interval adapter's subscription
  state machine,
* `inputCore`'s `buildEntry` and the `MashOS` facade: config merging,
  adapter rebuilding, per-feature operation routing.
-/

namespace MashOSProof

/-! ## Calendar groundwork (ECMAScript `Date` semantics, zero offset) -/

def msPerDay : Int := 86400000
def msPerHour : Int := 3600000
def msPerMinute : Int := 60000
def msPerSecond : Int := 1000

/-- Gregorian leap-year rule. -/
def isLeap (y : Int) : Bool := y % 4 == 0 && (y % 100 != 0 || y % 400 == 0)

/-- One on leap years, zero otherwise (ECMAScript `InLeapYear`). -/
def leapDays (y : Int) : Int := if isLeap y then 1 else 0

/-- ECMAScript `DayFromYear`: epoch day number of January 1 of year `y`. -/
def dayFromYear (y : Int) : Int :=
  365 * (y - 1970) + (y - 1969) / 4 - (y - 1901) / 100 + (y - 1601) / 400

/-- ECMAScript `YearFromTime` on a day number: the (unique) year `y` with
`dayFromYear y ≤ z < dayFromYear (y+1)`, computed by linear approximation
plus at most two corrective steps. -/
def yearFromDay (z : Int) : Int :=
  let y := 1970 + (400 * z) / 146097
  if z < dayFromYear y then
    if z < dayFromYear (y - 1) then y - 2 else y - 1
  else if dayFromYear (y + 1) ≤ z then
    if dayFromYear (y + 2) ≤ z then y + 2 else y + 1
  else y

theorem dayFromYear_mono {a b : Int} (h : a ≤ b) : dayFromYear a ≤ dayFromYear b := by
  unfold dayFromYear
  omega

theorem isLeap_iff (y : Int) :
    isLeap y = true ↔ (y % 4 = 0 ∧ (y % 100 ≠ 0 ∨ y % 400 = 0)) := by
  simp [isLeap, Bool.and_eq_true, Bool.or_eq_true]

theorem dayFromYear_succ (y : Int) :
    dayFromYear (y + 1) = dayFromYear y + 365 + leapDays y := by
  unfold leapDays
  by_cases h : isLeap y = true
  · rw [isLeap_iff] at h
    simp only [if_pos (isLeap_iff y |>.mpr h)]
    unfold dayFromYear
    omega
  · have h' : ¬(y % 4 = 0 ∧ (y % 100 ≠ 0 ∨ y % 400 = 0)) := fun hc => h ((isLeap_iff y).mpr hc)
    simp only [if_neg h]
    unfold dayFromYear
    omega

/-- Low-side safety of the year approximation. -/
theorem approx_low (z : Int) : dayFromYear (1970 + (400 * z) / 146097 - 2) ≤ z := by
  unfold dayFromYear
  omega

/-- High-side safety of the year approximation. -/
theorem approx_high (z : Int) : z < dayFromYear (1970 + (400 * z) / 146097 + 3) := by
  unfold dayFromYear
  omega

theorem yearFromDay_bracket (z : Int) :
    dayFromYear (yearFromDay z) ≤ z ∧ z < dayFromYear (yearFromDay z + 1) := by
  have hlow := approx_low z
  have hhigh := approx_high z
  unfold yearFromDay
  set y := 1970 + 400 * z / 146097 with hy
  by_cases h1 : z < dayFromYear y
  · rw [if_pos h1]
    by_cases h2 : z < dayFromYear (y - 1)
    · rw [if_pos h2]
      have e : y - 2 + 1 = y - 1 := by ring
      rw [e]
      exact ⟨hlow, h2⟩
    · rw [if_neg h2]
      have e : y - 1 + 1 = y := by ring
      rw [e]
      exact ⟨by omega, h1⟩
  · rw [if_neg h1]
    by_cases h3 : dayFromYear (y + 1) ≤ z
    · rw [if_pos h3]
      by_cases h4 : dayFromYear (y + 2) ≤ z
      · rw [if_pos h4]
        have e : y + 2 + 1 = y + 3 := by ring
        rw [e]
        exact ⟨h4, hhigh⟩
      · rw [if_neg h4]
        have e : y + 1 + 1 = y + 2 := by ring
        rw [e]
        exact ⟨h3, by omega⟩
    · rw [if_neg h3]
      exact ⟨by omega, by omega⟩

theorem yearFromDay_eq {z y : Int} (h1 : dayFromYear y ≤ z) (h2 : z < dayFromYear (y + 1)) :
    yearFromDay z = y := by
  obtain ⟨b1, b2⟩ := yearFromDay_bracket z
  by_contra hne
  rcases lt_or_gt_of_ne hne with hlt | hgt
  · have : yearFromDay z + 1 ≤ y := by omega
    have := dayFromYear_mono this
    omega
  · have : y + 1 ≤ yearFromDay z := by omega
    have := dayFromYear_mono this
    omega

/-- Cumulative days before 0-based month `m` within a year (`ily` = leap indicator). -/
def monthStartDwy (ily m : Int) : Int :=
  (if m = 0 then 0 else if m = 1 then 31 else if m = 2 then 59 else if m = 3 then 90
   else if m = 4 then 120 else if m = 5 then 151 else if m = 6 then 181
   else if m = 7 then 212 else if m = 8 then 243 else if m = 9 then 273
   else if m = 10 then 304 else 334) + (if 2 ≤ m then ily else 0)

/-- ECMAScript `MonthFromTime` on a day-within-year (0-based month). -/
def monthFromDwy (ily dwy : Int) : Int :=
  if dwy < 31 then 0
  else if dwy < 59 + ily then 1
  else if dwy < 90 + ily then 2
  else if dwy < 120 + ily then 3
  else if dwy < 151 + ily then 4
  else if dwy < 181 + ily then 5
  else if dwy < 212 + ily then 6
  else if dwy < 243 + ily then 7
  else if dwy < 273 + ily then 8
  else if dwy < 304 + ily then 9
  else if dwy < 334 + ily then 10
  else 11

/-- ECMAScript `DateFromTime` on a day-within-year (1-based day of month). -/
def dateFromDwy (ily dwy : Int) : Int := dwy - monthStartDwy ily (monthFromDwy ily dwy) + 1

/-- Length of 0-based month `m` of year `y`. -/
def daysInMonth (y m : Int) : Int :=
  if m = 1 then 28 + leapDays y
  else if m = 3 ∨ m = 5 ∨ m = 8 ∨ m = 10 then 30 else 31

/-- ECMAScript `MakeDay` (0-based month, with month overflow normalization). -/
def makeDay (year month date : Int) : Int :=
  let ym := year + month / 12
  let mn := month % 12
  dayFromYear ym + monthStartDwy (leapDays ym) mn + date - 1

/-! Epoch-millisecond accessors (`Date.prototype.get*`, zero local offset). -/

def epochDay (t : Int) : Int := t / msPerDay
def msOfDay (t : Int) : Int := t % msPerDay
def getFullYear (t : Int) : Int := yearFromDay (epochDay t)
def dwyOf (t : Int) : Int := epochDay t - dayFromYear (getFullYear t)
def getMonth (t : Int) : Int := monthFromDwy (leapDays (getFullYear t)) (dwyOf t)
def getDate (t : Int) : Int := dateFromDwy (leapDays (getFullYear t)) (dwyOf t)
def getDay (t : Int) : Int := (epochDay t + 4) % 7
def getHours (t : Int) : Int := msOfDay t / msPerHour
def getMinutes (t : Int) : Int := t % msPerHour / msPerMinute
def getSeconds (t : Int) : Int := t % msPerMinute / msPerSecond
def getMilliseconds (t : Int) : Int := t % msPerSecond

/-- Source `new Date(y, mon, d, hh, mi, ss, ms)` (zero offset, years taken literally). -/
def mkDate (y mon d hh mi ss ms : Int) : Int :=
  makeDay y mon d * msPerDay + hh * msPerHour + mi * msPerMinute + ss * msPerSecond + ms

theorem leapDays_cases (y : Int) : leapDays y = 0 ∨ leapDays y = 1 := by
  unfold leapDays; split <;> simp

theorem monthFromDwy_bounds (ily dwy : Int) :
    0 ≤ monthFromDwy ily dwy ∧ monthFromDwy ily dwy ≤ 11 := by
  unfold monthFromDwy
  omega

/-- Backward round trip at day level: rebuilding the civil triple read off an
instant yields the instant's day number. -/
theorem makeDay_getters (t : Int) :
    makeDay (getFullYear t) (getMonth t) (getDate t) = epochDay t := by
  obtain ⟨hm0, hm1⟩ := monthFromDwy_bounds (leapDays (getFullYear t)) (dwyOf t)
  unfold makeDay getDate dateFromDwy getMonth
  have hdiv : (monthFromDwy (leapDays (getFullYear t)) (dwyOf t)) / 12 = 0 := by omega
  have hmod : (monthFromDwy (leapDays (getFullYear t)) (dwyOf t)) % 12 =
      monthFromDwy (leapDays (getFullYear t)) (dwyOf t) := by omega
  rw [hdiv, hmod]
  simp only [add_zero]
  unfold dwyOf
  omega

/-- Forward round trip at day level: the getters recover valid civil inputs. -/
theorem getters_makeDay (y m d : Int) (hm0 : 0 ≤ m) (hm1 : m ≤ 11)
    (hd0 : 1 ≤ d) (hd1 : d ≤ daysInMonth y m) :
    yearFromDay (makeDay y m d) = y ∧
    monthFromDwy (leapDays y) (makeDay y m d - dayFromYear y) = m ∧
    dateFromDwy (leapDays y) (makeDay y m d - dayFromYear y) = d := by
  rcases leapDays_cases y with hl | hl <;>
  · have hdiv : m / 12 = 0 := by omega
    have hmod : m % 12 = m := by omega
    have hz : makeDay y m d = dayFromYear y + monthStartDwy (leapDays y) m + d - 1 := by
      unfold makeDay
      rw [hdiv, hmod, add_zero]
    have hy : yearFromDay (makeDay y m d) = y := by
      apply yearFromDay_eq
      · rw [hz]
        unfold monthStartDwy
        omega
      · rw [hz, dayFromYear_succ]
        unfold daysInMonth at hd1
        unfold monthStartDwy
        omega
    have hmeq : monthFromDwy (leapDays y) (makeDay y m d - dayFromYear y) = m := by
      rw [hz]
      unfold daysInMonth at hd1
      unfold monthFromDwy monthStartDwy
      omega
    refine ⟨hy, hmeq, ?_⟩
    unfold dateFromDwy
    rw [hmeq, hz]
    unfold daysInMonth at hd1
    unfold monthStartDwy
    omega

theorem makeDay_date_linear (y m a b : Int) : makeDay y m a - makeDay y m b = a - b := by
  unfold makeDay
  dsimp only
  omega

/-- Clock-field extraction for `mkDate` under valid civil/time components. -/
theorem mkDate_getters (y m d hh mi ss ms : Int) (hm0 : 0 ≤ m) (hm1 : m ≤ 11)
    (hd0 : 1 ≤ d) (hd1 : d ≤ daysInMonth y m)
    (hh0 : 0 ≤ hh) (hh1 : hh < 24) (hmi0 : 0 ≤ mi) (hmi1 : mi < 60)
    (hs0 : 0 ≤ ss) (hs1 : ss < 60) (hms0 : 0 ≤ ms) (hms1 : ms < 1000) :
    epochDay (mkDate y m d hh mi ss ms) = makeDay y m d ∧
    getFullYear (mkDate y m d hh mi ss ms) = y ∧
    getMonth (mkDate y m d hh mi ss ms) = m ∧
    getDate (mkDate y m d hh mi ss ms) = d ∧
    getDay (mkDate y m d hh mi ss ms) = (makeDay y m d + 4) % 7 ∧
    getHours (mkDate y m d hh mi ss ms) = hh ∧
    getMinutes (mkDate y m d hh mi ss ms) = mi ∧
    getSeconds (mkDate y m d hh mi ss ms) = ss ∧
    getMilliseconds (mkDate y m d hh mi ss ms) = ms := by
  have hep : epochDay (mkDate y m d hh mi ss ms) = makeDay y m d := by
    unfold epochDay mkDate msPerDay msPerHour msPerMinute msPerSecond
    omega
  obtain ⟨hy, hmo, hda⟩ := getters_makeDay y m d hm0 hm1 hd0 hd1
  have hfy : getFullYear (mkDate y m d hh mi ss ms) = y := by
    unfold getFullYear
    rw [hep, hy]
  have hdwy : dwyOf (mkDate y m d hh mi ss ms) = makeDay y m d - dayFromYear y := by
    unfold dwyOf
    rw [hep, hfy]
  refine ⟨hep, hfy, ?_, ?_, ?_, ?_, ?_, ?_, ?_⟩
  · unfold getMonth
    rw [hfy, hdwy]
    exact hmo
  · unfold getDate
    rw [hfy, hdwy]
    exact hda
  · unfold getDay
    rw [hep]
  · unfold getHours msOfDay mkDate msPerDay msPerHour msPerMinute msPerSecond
    omega
  · unfold getMinutes mkDate msPerDay msPerHour msPerMinute msPerSecond
    omega
  · unfold getSeconds mkDate msPerDay msPerHour msPerMinute msPerSecond
    omega
  · unfold getMilliseconds mkDate msPerDay msPerHour msPerMinute msPerSecond
    omega

set_option maxHeartbeats 1600000 in
/-- Validity of the extracted day-of-month for any instant. -/
theorem getDate_valid (t : Int) :
    1 ≤ getDate t ∧ getDate t ≤ daysInMonth (getFullYear t) (getMonth t) := by
  obtain ⟨hb1, hb2⟩ := yearFromDay_bracket (epochDay t)
  have hsucc := dayFromYear_succ (yearFromDay (epochDay t))
  unfold getDate getMonth dwyOf getFullYear
  rcases leapDays_cases (yearFromDay (epochDay t)) with hl | hl <;>
  · unfold dateFromDwy daysInMonth monthFromDwy monthStartDwy
    rw [hl] at hsucc ⊢
    omega

/-! ## `mywebCore` (src/unnamed/part_002) -/

/-- Source `PeriodRange` (src/types.ts); `stop` models the source's `end` field. -/
structure PeriodRange where
  start : Int
  stop : Int
deriving Repr, DecidableEq

/-- Source `startOfDay`: local 00:00:00.000 of the instant's calendar day. -/
def startOfDay (t : Int) : Int :=
  mkDate (getFullYear t) (getMonth t) (getDate t) 0 0 0 0

/-- Source `endOfDay`: local 23:59:59.999 of the instant's calendar day. -/
def endOfDay (t : Int) : Int :=
  mkDate (getFullYear t) (getMonth t) (getDate t) 23 59 59 999

/-- Source `Date.prototype.setDate`: replace the day-of-month, keep time of day. -/
def setDate (t n : Int) : Int :=
  makeDay (getFullYear t) (getMonth t) n * msPerDay + msOfDay t

/-- Source `startOfWeekSunday`: local Sunday 00:00 of the instant's week. -/
def startOfWeekSunday (t : Int) : Int :=
  let day := getDay t
  let s := startOfDay (mkDate (getFullYear t) (getMonth t) (getDate t) 0 0 0 0)
  setDate s (getDate s - day)

/-- Source `endOfWeekSaturday`: local Saturday 23:59:59.999 of the instant's week. -/
def endOfWeekSaturday (t : Int) : Int :=
  let s := startOfWeekSunday t
  mkDate (getFullYear s) (getMonth s) (getDate s + 6) 23 59 59 999

/-- Source `startOfMonth`: local first of month, 00:00. -/
def startOfMonth (t : Int) : Int :=
  mkDate (getFullYear t) (getMonth t) 1 0 0 0 0

/-- Source `endOfMonth`: local last day of month, 23:59:59.999 (day 0 of next month). -/
def endOfMonth (t : Int) : Int :=
  mkDate (getFullYear t) (getMonth t + 1) 0 23 59 59 999

/-- Source `isWeeklyReportTrigger`: Sunday 07:00 local (minute granularity). -/
def isWeeklyReportTrigger (t : Int) : Bool :=
  getDay t == 0 && getHours t == 7 && getMinutes t == 0

/-- Source `isMonthlyReportTrigger`: day 1 of month, 07:00 local (minute granularity). -/
def isMonthlyReportTrigger (t : Int) : Bool :=
  getDate t == 1 && getHours t == 7 && getMinutes t == 0

/-- Source `getCompletedWeeklyRangeFrom`: the week (Sun..Sat) before the week containing `ref`. -/
def getCompletedWeeklyRangeFrom (ref : Int) : PeriodRange :=
  let thisWeekStart := startOfWeekSunday ref
  let lastWeekEnd := thisWeekStart - 1
  let lastWeekStart := startOfWeekSunday
    (mkDate (getFullYear lastWeekEnd) (getMonth lastWeekEnd) (getDate lastWeekEnd) 0 0 0 0)
  ⟨lastWeekStart, lastWeekEnd⟩

/-- Source `getCurrentWeeklyRangeContaining`. -/
def getCurrentWeeklyRangeContaining (ref : Int) : PeriodRange :=
  ⟨startOfWeekSunday ref, endOfWeekSaturday ref⟩

/-- Source `getCompletedMonthlyRangeFrom`: the calendar month before the one containing `ref`. -/
def getCompletedMonthlyRangeFrom (ref : Int) : PeriodRange :=
  let thisMonthStart := startOfMonth ref
  let lastMonthEnd := thisMonthStart - 1
  ⟨startOfMonth lastMonthEnd, lastMonthEnd⟩

/-- Source `getCurrentMonthlyRangeContaining`. -/
def getCurrentMonthlyRangeContaining (ref : Int) : PeriodRange :=
  ⟨startOfMonth ref, endOfMonth ref⟩

/-- Source `startOfDay` is the floor of the instant to its day. -/
theorem startOfDay_eq (t : Int) : startOfDay t = msPerDay * epochDay t := by
  unfold startOfDay mkDate
  rw [makeDay_getters t]
  unfold msPerHour msPerMinute msPerSecond
  ring

/-- Closed form of `setDate`. -/
theorem setDate_eq (t n : Int) :
    setDate t n = (epochDay t + n - getDate t) * msPerDay + msOfDay t := by
  have hlin := makeDay_date_linear (getFullYear t) (getMonth t) n (getDate t)
  have hmk := makeDay_getters t
  unfold epochDay msPerDay at hmk
  unfold setDate epochDay msPerDay msOfDay
  omega

/-- Closed form of `startOfWeekSunday`. -/
theorem startOfWeekSunday_eq (t : Int) :
    startOfWeekSunday t = msPerDay * (epochDay t - (epochDay t + 4) % 7) := by
  have h1 : mkDate (getFullYear t) (getMonth t) (getDate t) 0 0 0 0 = msPerDay * epochDay t := by
    have h := startOfDay_eq t
    unfold startOfDay at h
    exact h
  have hep : epochDay (msPerDay * epochDay t) = epochDay t := by
    unfold epochDay msPerDay
    omega
  unfold startOfWeekSunday
  dsimp only
  rw [h1, startOfDay_eq (msPerDay * epochDay t), hep, setDate_eq, hep]
  have hmo : msOfDay (msPerDay * epochDay t) = 0 := by
    unfold msOfDay msPerDay
    omega
  rw [hmo]
  unfold getDay msPerDay
  omega

/-- Rebuilding a civil date at midnight floors the instant to its day
(`new Date(d.getFullYear(), d.getMonth(), d.getDate())`). -/
theorem civilFloor (t : Int) :
    mkDate (getFullYear t) (getMonth t) (getDate t) 0 0 0 0 = msPerDay * epochDay t := by
  have h := startOfDay_eq t
  unfold startOfDay at h
  exact h

theorem epochDay_mul (k : Int) : epochDay (msPerDay * k) = k := by
  unfold epochDay msPerDay
  omega

/-- Claim C3: for every reference instant, the completed weekly range ends one
millisecond before the current week's start, spans exactly seven local days
minus one millisecond, and runs from the previous week's Sunday 00:00:00.000
to its Saturday 23:59:59.999. -/
theorem C3_completed_weekly_range (ref : Int) :
    (getCompletedWeeklyRangeFrom ref).stop = (getCurrentWeeklyRangeContaining ref).start - 1 ∧
    (getCompletedWeeklyRangeFrom ref).stop - (getCompletedWeeklyRangeFrom ref).start
      = 7 * msPerDay - 1 ∧
    (getCompletedWeeklyRangeFrom ref).start
      = (getCurrentWeeklyRangeContaining ref).start - 7 * msPerDay ∧
    getDay (getCompletedWeeklyRangeFrom ref).start = 0 ∧
    msOfDay (getCompletedWeeklyRangeFrom ref).start = 0 ∧
    getDay (getCompletedWeeklyRangeFrom ref).stop = 6 ∧
    getHours (getCompletedWeeklyRangeFrom ref).stop = 23 ∧
    getMinutes (getCompletedWeeklyRangeFrom ref).stop = 59 ∧
    getSeconds (getCompletedWeeklyRangeFrom ref).stop = 59 ∧
    getMilliseconds (getCompletedWeeklyRangeFrom ref).stop = 999 := by
  unfold getCompletedWeeklyRangeFrom getCurrentWeeklyRangeContaining
  dsimp only
  rw [civilFloor (startOfWeekSunday ref - 1),
    startOfWeekSunday_eq (msPerDay * epochDay (startOfWeekSunday ref - 1)),
    epochDay_mul, startOfWeekSunday_eq ref]
  unfold getDay getHours getMinutes getSeconds getMilliseconds msOfDay epochDay
  unfold msPerDay msPerHour msPerMinute msPerSecond
  omega

theorem daysInMonth_pos (y m : Int) : 1 ≤ daysInMonth y m := by
  rcases leapDays_cases y with h | h <;>
  · unfold daysInMonth
    rw [h]
    omega

theorem getMonth_bounds (t : Int) : 0 ≤ getMonth t ∧ getMonth t ≤ 11 := by
  unfold getMonth
  exact monthFromDwy_bounds _ _

/-- Recover civil getters for any instant whose day number is a valid `makeDay`. -/
theorem getters_at (y m d : Int) (hm0 : 0 ≤ m) (hm1 : m ≤ 11) (hd0 : 1 ≤ d)
    (hd1 : d ≤ daysInMonth y m) (t : Int) (ht : epochDay t = makeDay y m d) :
    getFullYear t = y ∧ getMonth t = m ∧ getDate t = d := by
  obtain ⟨h1, h2, h3⟩ := getters_makeDay y m d hm0 hm1 hd0 hd1
  have hfy : getFullYear t = y := by
    unfold getFullYear
    rw [ht, h1]
  refine ⟨hfy, ?_, ?_⟩
  · unfold getMonth dwyOf
    rw [ht, hfy, h2]
  · unfold getDate dwyOf
    rw [ht, hfy, h3]

theorem startOfMonth_eq (t : Int) :
    startOfMonth t = makeDay (getFullYear t) (getMonth t) 1 * msPerDay := by
  unfold startOfMonth mkDate
  ring

/-- The millisecond before the first of month `m ≥ 1` is the last day of month `m-1`. -/
theorem makeDay_prev_pos (y m : Int) (h0 : 1 ≤ m) (h1 : m ≤ 11) :
    makeDay y m 1 - 1 = makeDay y (m - 1) (daysInMonth y (m - 1)) := by
  have d1 : m / 12 = 0 := by omega
  have d2 : m % 12 = m := by omega
  have d3 : (m - 1) / 12 = 0 := by omega
  have d4 : (m - 1) % 12 = m - 1 := by omega
  unfold makeDay
  dsimp only
  rw [d1, d2, d3, d4, add_zero]
  rcases leapDays_cases y with h | h <;>
  · unfold daysInMonth monthStartDwy
    rw [h]
    omega

/-- The millisecond before January 1 is December 31 of the previous year. -/
theorem makeDay_prev_zero (y : Int) :
    makeDay y 0 1 - 1 = makeDay (y - 1) 11 (daysInMonth (y - 1) 11) := by
  have h := dayFromYear_succ (y - 1)
  have e : y - 1 + 1 = y := by ring
  rw [e] at h
  have d1 : (0 : Int) / 12 = 0 := by omega
  have d2 : (0 : Int) % 12 = 0 := by omega
  have d3 : (11 : Int) / 12 = 0 := by omega
  have d4 : (11 : Int) % 12 = 11 := by omega
  unfold makeDay
  dsimp only
  rw [d1, d2, d3, d4, add_zero, add_zero]
  rcases leapDays_cases (y - 1) with hl | hl <;>
  · unfold daysInMonth monthStartDwy
    rw [hl] at h ⊢
    omega

/-- Core facts about `getCompletedMonthlyRangeFrom` given the previous-month
coordinates `(y', m')`. -/
theorem completedMonthly_core (ref y' m' : Int) (hm'0 : 0 ≤ m') (hm'1 : m' ≤ 11)
    (hprev : makeDay (getFullYear ref) (getMonth ref) 1 - 1
      = makeDay y' m' (daysInMonth y' m')) :
    (getCompletedMonthlyRangeFrom ref).start = makeDay y' m' 1 * msPerDay ∧
    getFullYear (getCompletedMonthlyRangeFrom ref).start = y' ∧
    getMonth (getCompletedMonthlyRangeFrom ref).start = m' ∧
    getDate (getCompletedMonthlyRangeFrom ref).start = 1 ∧
    msOfDay (getCompletedMonthlyRangeFrom ref).start = 0 ∧
    (getCompletedMonthlyRangeFrom ref).stop = startOfMonth ref - 1 ∧
    (getCompletedMonthlyRangeFrom ref).stop
      = (getCompletedMonthlyRangeFrom ref).start + daysInMonth y' m' * msPerDay - 1 ∧
    getFullYear (getCompletedMonthlyRangeFrom ref).stop = y' ∧
    getMonth (getCompletedMonthlyRangeFrom ref).stop = m' ∧
    getDate (getCompletedMonthlyRangeFrom ref).stop = daysInMonth y' m' ∧
    getHours (getCompletedMonthlyRangeFrom ref).stop = 23 ∧
    getMinutes (getCompletedMonthlyRangeFrom ref).stop = 59 ∧
    getSeconds (getCompletedMonthlyRangeFrom ref).stop = 59 ∧
    getMilliseconds (getCompletedMonthlyRangeFrom ref).stop = 999 := by
  have hdim1 : 1 ≤ daysInMonth y' m' := daysInMonth_pos y' m'
  have hSm := startOfMonth_eq ref
  have hepl : epochDay (startOfMonth ref - 1) = makeDay y' m' (daysInMonth y' m') := by
    rw [hSm, ← hprev]
    unfold epochDay msPerDay
    omega
  obtain ⟨gfy, gmo, gda⟩ :=
    getters_at y' m' (daysInMonth y' m') hm'0 hm'1 hdim1 (le_refl _) _ hepl
  have hstart : startOfMonth (startOfMonth ref - 1) = makeDay y' m' 1 * msPerDay := by
    rw [startOfMonth_eq (startOfMonth ref - 1), gfy, gmo]
  have hepstart : epochDay (startOfMonth (startOfMonth ref - 1)) = makeDay y' m' 1 := by
    rw [hstart]
    unfold epochDay msPerDay
    omega
  obtain ⟨g2fy, g2mo, g2da⟩ :=
    getters_at y' m' 1 hm'0 hm'1 (le_refl _) hdim1 _ hepstart
  have hlin := makeDay_date_linear y' m' (daysInMonth y' m') 1
  unfold getCompletedMonthlyRangeFrom
  dsimp only
  refine ⟨hstart, g2fy, g2mo, g2da, ?_, rfl, ?_, gfy, gmo, gda, ?_, ?_, ?_, ?_⟩
  · rw [hstart]
    unfold msOfDay msPerDay
    omega
  · rw [hstart, hSm]
    unfold msPerDay at *
    omega
  · unfold getHours msOfDay
    rw [hSm]
    unfold msPerDay msPerHour
    omega
  · unfold getMinutes
    rw [hSm]
    unfold msPerDay msPerHour msPerMinute
    omega
  · unfold getSeconds
    rw [hSm]
    unfold msPerDay msPerMinute msPerSecond
    omega
  · unfold getMilliseconds
    rw [hSm]
    unfold msPerDay msPerSecond
    omega

/-- Claim C4: for every reference instant, `getCompletedMonthlyRangeFrom`
returns the full previous calendar month — first day 00:00:00.000 through
last day 23:59:59.999 local — leap-aware and rolling January back to the
previous December. -/
theorem C4_completed_monthly_range (ref : Int) :
    (getCompletedMonthlyRangeFrom ref).stop
      = (getCurrentMonthlyRangeContaining ref).start - 1 ∧
    getDate (getCompletedMonthlyRangeFrom ref).start = 1 ∧
    msOfDay (getCompletedMonthlyRangeFrom ref).start = 0 ∧
    (getMonth ref = 0 →
      getFullYear (getCompletedMonthlyRangeFrom ref).start = getFullYear ref - 1 ∧
      getMonth (getCompletedMonthlyRangeFrom ref).start = 11) ∧
    (1 ≤ getMonth ref →
      getFullYear (getCompletedMonthlyRangeFrom ref).start = getFullYear ref ∧
      getMonth (getCompletedMonthlyRangeFrom ref).start = getMonth ref - 1) ∧
    (getCompletedMonthlyRangeFrom ref).stop
      = (getCompletedMonthlyRangeFrom ref).start
        + daysInMonth (getFullYear (getCompletedMonthlyRangeFrom ref).start)
            (getMonth (getCompletedMonthlyRangeFrom ref).start) * msPerDay - 1 ∧
    getDate (getCompletedMonthlyRangeFrom ref).stop
      = daysInMonth (getFullYear (getCompletedMonthlyRangeFrom ref).start)
          (getMonth (getCompletedMonthlyRangeFrom ref).start) ∧
    getMonth (getCompletedMonthlyRangeFrom ref).stop
      = getMonth (getCompletedMonthlyRangeFrom ref).start ∧
    getFullYear (getCompletedMonthlyRangeFrom ref).stop
      = getFullYear (getCompletedMonthlyRangeFrom ref).start ∧
    getHours (getCompletedMonthlyRangeFrom ref).stop = 23 ∧
    getMinutes (getCompletedMonthlyRangeFrom ref).stop = 59 ∧
    getSeconds (getCompletedMonthlyRangeFrom ref).stop = 59 ∧
    getMilliseconds (getCompletedMonthlyRangeFrom ref).stop = 999 := by
  obtain ⟨hm0, hm1⟩ := getMonth_bounds ref
  by_cases hz : getMonth ref = 0
  · have hprev : makeDay (getFullYear ref) (getMonth ref) 1 - 1
        = makeDay (getFullYear ref - 1) 11 (daysInMonth (getFullYear ref - 1) 11) := by
      rw [hz]
      exact makeDay_prev_zero (getFullYear ref)
    obtain ⟨c1, c2, c3, c4, c5, c6, c7, c8, c9, c10, c11, c12, c13, c14⟩ :=
      completedMonthly_core ref (getFullYear ref - 1) 11 (by omega) (by omega) hprev
    refine ⟨c6, c4, c5, fun _ => ⟨c2, c3⟩, fun hge => absurd hz (by omega), ?_, ?_, ?_, ?_,
      c11, c12, c13, c14⟩
    · rw [c2, c3]; exact c7
    · rw [c2, c3]; exact c10
    · rw [c9, c3]
    · rw [c8, c2]
  · have hge : 1 ≤ getMonth ref := by omega
    have hprev : makeDay (getFullYear ref) (getMonth ref) 1 - 1
        = makeDay (getFullYear ref) (getMonth ref - 1)
            (daysInMonth (getFullYear ref) (getMonth ref - 1)) :=
      makeDay_prev_pos (getFullYear ref) (getMonth ref) hge hm1
    obtain ⟨c1, c2, c3, c4, c5, c6, c7, c8, c9, c10, c11, c12, c13, c14⟩ :=
      completedMonthly_core ref (getFullYear ref) (getMonth ref - 1) (by omega) (by omega) hprev
    refine ⟨c6, c4, c5, fun h0 => absurd h0 (by omega), fun _ => ⟨c2, c3⟩, ?_, ?_, ?_, ?_,
      c11, c12, c13, c14⟩
    · rw [c2, c3]; exact c7
    · rw [c2, c3]; exact c10
    · rw [c9, c3]
    · rw [c8, c2]

theorem C4_completed_monthly_range_witness :
    1 ≤ getMonth (mkDate 2024 2 1 7 0 0 0) ∧
    getFullYear (getCompletedMonthlyRangeFrom (mkDate 2024 2 1 7 0 0 0)).start = 2024 ∧
    getMonth (getCompletedMonthlyRangeFrom (mkDate 2024 2 1 7 0 0 0)).start = 1 ∧
    getDate (getCompletedMonthlyRangeFrom (mkDate 2024 2 1 7 0 0 0)).stop = 29 := by
  have h := (C4_completed_monthly_range (mkDate 2024 2 1 7 0 0 0)).2.2.2.2.1 (by decide)
  have h7 := (C4_completed_monthly_range (mkDate 2024 2 1 7 0 0 0)).2.2.2.2.2.2.1
  refine ⟨by decide, ?_, ?_, ?_⟩
  · rw [h.1]
    decide
  · rw [h.2]
    decide
  · rw [h7, h.1, h.2]
    decide

/-- Claim C5: `isWeeklyReportTrigger` holds exactly on Sundays at local 07:00
(any second/millisecond), `isMonthlyReportTrigger` exactly on day 1 at 07:00;
both are false at Sunday 07:01:00 and the weekly trigger is false at
Monday 07:00:00 (2025-10-12 is a Sunday, 2025-10-13 a Monday). -/
theorem C5_report_triggers :
    (∀ y m d hh mi ss ms : Int, 0 ≤ m → m ≤ 11 → 1 ≤ d → d ≤ daysInMonth y m →
      0 ≤ hh → hh < 24 → 0 ≤ mi → mi < 60 → 0 ≤ ss → ss < 60 → 0 ≤ ms → ms < 1000 →
      (isWeeklyReportTrigger (mkDate y m d hh mi ss ms) = true ↔
        ((makeDay y m d + 4) % 7 = 0 ∧ hh = 7 ∧ mi = 0)) ∧
      (isMonthlyReportTrigger (mkDate y m d hh mi ss ms) = true ↔
        (d = 1 ∧ hh = 7 ∧ mi = 0))) ∧
    isWeeklyReportTrigger (mkDate 2025 9 12 7 1 0 0) = false ∧
    isMonthlyReportTrigger (mkDate 2025 9 12 7 1 0 0) = false ∧
    isWeeklyReportTrigger (mkDate 2025 9 13 7 0 0 0) = false := by
  refine ⟨?_, by decide, by decide, by decide⟩
  intro y m d hh mi ss ms hm0 hm1 hd0 hd1 hh0 hh1 hmi0 hmi1 hs0 hs1 hms0 hms1
  obtain ⟨hep, hfy, hmo, hda, hdy, hhh, hmm, hss, hmsms⟩ :=
    mkDate_getters y m d hh mi ss ms hm0 hm1 hd0 hd1 hh0 hh1 hmi0 hmi1 hs0 hs1 hms0 hms1
  constructor
  · unfold isWeeklyReportTrigger
    rw [hdy, hhh, hmm]
    simp [Bool.and_eq_true, beq_iff_eq, and_assoc]
  · unfold isMonthlyReportTrigger
    rw [hda, hhh, hmm]
    simp [Bool.and_eq_true, beq_iff_eq, and_assoc]

theorem C5_report_triggers_witness :
    isWeeklyReportTrigger (mkDate 2025 9 12 7 0 30 500) = true ∧
    isMonthlyReportTrigger (mkDate 2025 11 1 7 0 0 1) = true :=
  ⟨((C5_report_triggers.1 2025 9 12 7 0 30 500 (by decide) (by decide) (by decide) (by decide)
      (by decide) (by decide) (by decide) (by decide) (by decide) (by decide) (by decide)
      (by decide)).1).mpr (by decide),
   ((C5_report_triggers.1 2025 11 1 7 0 0 1 (by decide) (by decide) (by decide) (by decide)
      (by decide) (by decide) (by decide) (by decide) (by decide) (by decide) (by decide)
      (by decide)).2).mpr (by decide)⟩

/-! ## ISO-8601 rendering (`Date.prototype.toISOString`, zero offset) -/

def padLeft (w : Nat) (s : String) : String :=
  String.mk (List.replicate (w - s.length) '0') ++ s

def padInt (w : Nat) (n : Int) : String := padLeft w (toString n.toNat)

/-- Year field: four digits for 0..9999, else explicit sign and six digits. -/
def isoYear (y : Int) : String :=
  if 0 ≤ y ∧ y ≤ 9999 then padInt 4 y
  else if y < 0 then "-" ++ padInt 6 (-y) else "+" ++ padInt 6 y

def toISOString (t : Int) : String :=
  isoYear (getFullYear t) ++ "-" ++ padInt 2 (getMonth t + 1) ++ "-" ++ padInt 2 (getDate t)
    ++ "T" ++ padInt 2 (getHours t) ++ ":" ++ padInt 2 (getMinutes t)
    ++ ":" ++ padInt 2 (getSeconds t) ++ "." ++ padInt 3 (getMilliseconds t) ++ "Z"

/-! ## `flowerCore` (src/unnamed/part_000)

A `MashTime` source is represented by the instant its `now()` returns, so the
optional `time` argument becomes an optional instant. -/

inductive EmotionStrength
  | weak
  | medium
  | strong
deriving DecidableEq, Repr

structure EmotionWithStrength where
  type : String
  strength : Option EmotionStrength := none
deriving DecidableEq, Repr

structure AnalyzeArgs where
  emotions : List EmotionWithStrength
  memo : Option String := none
  time : Option Int := none
deriving DecidableEq, Repr

structure ToneColor where
  h : ℚ
  s : ℚ
  l : ℚ
deriving DecidableEq, Repr

structure FlowerShape where
  spread : ℚ
deriving DecidableEq, Repr

structure FlowerAnimation where
  sway : ℚ
  breathAmplitude : ℚ
  bloomSpeed : ℚ
deriving DecidableEq, Repr

structure Flower where
  toneColor : ToneColor
  shape : FlowerShape
  animation : FlowerAnimation
deriving DecidableEq, Repr

inductive Weather
  | sunny
  | cloudy
  | rainy
  | night
deriving DecidableEq, Repr

structure FlowerState where
  flower : Flower
  climate : Weather
  annotated_at : Option String
deriving DecidableEq, Repr

inductive TimeBand
  | night
  | morning
  | afternoon
  | evening
deriving DecidableEq, Repr

structure AnnotateInput (T : Type) where
  data : T
  time : Option Int := none

structure Annotation (T : Type) where
  data : T
  timeBand : Option TimeBand
  annotated_at : Option String

/-- Source `annotate`: band the local hour and stamp the ISO rendering; both fields
are absent when no time source is supplied. -/
def annotate {T : Type} (input : AnnotateInput T) : Annotation T :=
  let now := input.time
  let hr := now.map getHours
  let timeBand : Option TimeBand :=
    match hr with
    | some hr =>
      some (if hr < 5 then .night else if hr < 11 then .morning
        else if hr < 17 then .afternoon else .evening)
    | none => none
  { data := input.data, timeBand := timeBand, annotated_at := now.map toISOString }

/-- Source `analyze`: deterministic flower/climate heuristics. The source stores the
five presence flags as numbers 0/1 and branches on their truthiness; here the
flags are booleans and `joy`/`peace` keep the numeric values used in
`spread`'s arithmetic. Decimal literals become exact rationals. -/
def analyze (args : AnalyzeArgs) : FlowerState :=
  let now := args.time
  let types := args.emotions.map (·.type)
  let joyB := types.contains "喜び"
  let sadB := types.contains "悲しみ"
  let angerB := types.contains "怒り"
  let anxietyB := types.contains "不安"
  let peaceB := types.contains "平穏"
  let joy : ℚ := if joyB then 1 else 0
  let peace : ℚ := if peaceB then 1 else 0
  let h : ℚ := if joyB then 50 else if sadB then 220 else if angerB then 0
    else if anxietyB then 200 else if peaceB then 120 else 200
  let s : ℚ := if joyB || angerB then 7/10 else if sadB then 9/20
    else if anxietyB then 11/20 else if peaceB then 7/20 else 1/2
  let l : ℚ := if peaceB then 7/10 else if joyB then 3/5 else if sadB then 9/20
    else if angerB then 9/20 else 11/20
  let spread : ℚ := min 1 ((joy + peace) * (3/5) + (if 3 ≤ types.length then (1/5 : ℚ) else 0))
  let sway : ℚ := if anxietyB then 4/5 else if peaceB then 1/5 else 1/2
  let breathAmplitude : ℚ := if joyB then 1/5 else if sadB then 1/10 else 3/20
  let bloomSpeed : ℚ := if joyB then 1 else if sadB then 3/5 else if anxietyB then 7/10
    else if angerB then 4/5 else 9/10
  let hour := now.map getHours
  let weather : Weather :=
    match hour with
    | some hour =>
      if hour < 5 ∨ 22 ≤ hour then .night
      else if joyB then .sunny else if sadB then .rainy else .cloudy
    | none => .cloudy
  { flower := { toneColor := { h := h, s := s, l := l },
                shape := { spread := spread },
                animation := { sway := sway,
                               breathAmplitude := breathAmplitude,
                               bloomSpeed := bloomSpeed } },
    climate := weather,
    annotated_at := now.map toISOString }

/-- Modelled from the spec for claim C1: the tone color is the table row of the
first present label in the priority order joy > sadness > anger > anxiety >
calm (each row as produced by the analyzer for that label alone), with
default (200, 0.5, 0.55). -/
def specPriorityToneColor (emotions : List EmotionWithStrength) : ToneColor :=
  let types := emotions.map (·.type)
  if types.contains "喜び" then { h := 50, s := 7/10, l := 3/5 }
  else if types.contains "悲しみ" then { h := 220, s := 9/20, l := 9/20 }
  else if types.contains "怒り" then { h := 0, s := 7/10, l := 9/20 }
  else if types.contains "不安" then { h := 200, s := 11/20, l := 11/20 }
  else if types.contains "平穏" then { h := 120, s := 7/20, l := 7/10 }
  else { h := 200, s := 1/2, l := 11/20 }

/-- Claim C1 counterexample: with sadness and anger present (no joy), the
first-priority match is sadness, whose saturation is 0.45; the analyzer
instead returns saturation 0.70 because its saturation rule puts anger
together with joy. -/
theorem C1_cex :
    (analyze { emotions := [{ type := "悲しみ" }, { type := "怒り" }] }).flower.toneColor
      ≠ specPriorityToneColor [{ type := "悲しみ" }, { type := "怒り" }] := by
  have h1 : (analyze { emotions := [{ type := "悲しみ" }, { type := "怒り" }] }).flower.toneColor.s
      = 7/10 := by
    simp [analyze]
  have h2 : (specPriorityToneColor [{ type := "悲しみ" }, { type := "怒り" }]).s = 9/20 := by
    simp [specPriorityToneColor]
  intro hEq
  rw [hEq, h2] at h1
  norm_num at h1

/-- Claim C1 amended: hue follows the priority joy > sadness > anger >
anxiety > calm with default 200; saturation is 0.70 when joy or anger is
present, else sadness 0.45, anxiety 0.55, calm 0.35, default 0.5; lightness
puts calm 0.70 first, then joy 0.60, sadness 0.45, anger 0.45, default 0.55
(anxiety falls through to the default); values are never blended, and an
input containing joy and sadness but not calm gets exactly joy's row. -/
theorem C1_analyze_tone_priority (args : AnalyzeArgs) :
    (analyze args).flower.toneColor =
      { h := if (args.emotions.map (·.type)).contains "喜び" then 50
          else if (args.emotions.map (·.type)).contains "悲しみ" then 220
          else if (args.emotions.map (·.type)).contains "怒り" then 0
          else if (args.emotions.map (·.type)).contains "不安" then 200
          else if (args.emotions.map (·.type)).contains "平穏" then 120 else 200,
        s := if (args.emotions.map (·.type)).contains "喜び"
              || (args.emotions.map (·.type)).contains "怒り" then 7/10
          else if (args.emotions.map (·.type)).contains "悲しみ" then 9/20
          else if (args.emotions.map (·.type)).contains "不安" then 11/20
          else if (args.emotions.map (·.type)).contains "平穏" then 7/20 else 1/2,
        l := if (args.emotions.map (·.type)).contains "平穏" then 7/10
          else if (args.emotions.map (·.type)).contains "喜び" then 3/5
          else if (args.emotions.map (·.type)).contains "悲しみ" then 9/20
          else if (args.emotions.map (·.type)).contains "怒り" then 9/20 else 11/20 } ∧
    ((args.emotions.map (·.type)).contains "喜び" = true →
      (args.emotions.map (·.type)).contains "平穏" = false →
      (analyze args).flower.toneColor = { h := 50, s := 7/10, l := 3/5 }) := by
  constructor
  · rfl
  · intro hj hp
    simp only [analyze, hj, hp]
    simp

theorem C1_analyze_tone_priority_witness :
    (analyze { emotions := [{ type := "喜び" }, { type := "悲しみ" }] }).flower.toneColor
      = { h := 50, s := 7/10, l := 3/5 } :=
  (C1_analyze_tone_priority { emotions := [{ type := "喜び" }, { type := "悲しみ" }] }).2
    (by decide) (by decide)

/-- Claim C7: weather is "cloudy" with no reference instant; otherwise the
night band (hour < 5 or ≥ 22) wins over the emotion branches, then joy gives
"sunny", sadness "rainy", and "cloudy" otherwise. -/
theorem C7_analyze_weather (args : AnalyzeArgs) :
    (args.time = none → (analyze args).climate = Weather.cloudy) ∧
    (∀ t, args.time = some t → (getHours t < 5 ∨ 22 ≤ getHours t) →
      (analyze args).climate = Weather.night) ∧
    (∀ t, args.time = some t → ¬(getHours t < 5 ∨ 22 ≤ getHours t) →
      (args.emotions.map (·.type)).contains "喜び" = true →
      (analyze args).climate = Weather.sunny) ∧
    (∀ t, args.time = some t → ¬(getHours t < 5 ∨ 22 ≤ getHours t) →
      (args.emotions.map (·.type)).contains "喜び" = false →
      (args.emotions.map (·.type)).contains "悲しみ" = true →
      (analyze args).climate = Weather.rainy) ∧
    (∀ t, args.time = some t → ¬(getHours t < 5 ∨ 22 ≤ getHours t) →
      (args.emotions.map (·.type)).contains "喜び" = false →
      (args.emotions.map (·.type)).contains "悲しみ" = false →
      (analyze args).climate = Weather.cloudy) := by
  refine ⟨?_, ?_, ?_, ?_, ?_⟩
  · intro ht
    simp [analyze, ht]
  · intro t ht hh
    simp [analyze, ht, hh]
  · intro t ht hh hj
    simp only [analyze, ht, hj]
    simp [hh]
  · intro t ht hh hj hs
    simp only [analyze, ht, hj, hs]
    simp [hh]
  · intro t ht hh hj hs
    simp only [analyze, ht, hj, hs]
    simp [hh]

theorem C7_analyze_weather_witness :
    (analyze { emotions := [{ type := "喜び" }], time := some (mkDate 2025 0 1 23 0 0 0) }).climate
      = Weather.night ∧
    (analyze { emotions := [{ type := "喜び" }], time := some (mkDate 2025 0 1 10 0 0 0) }).climate
      = Weather.sunny :=
  ⟨(C7_analyze_weather _).2.1 _ rfl (by decide),
   (C7_analyze_weather _).2.2.1 _ rfl (by decide) (by decide)⟩

/-- Claim C10: `annotate` passes `data` through unchanged; with a time source
the band is night/morning/afternoon/evening by local hour (< 5, < 11, < 17,
otherwise) and `annotated_at` is the ISO-8601 rendering; with no time source
both fields are absent. -/
theorem C10_annotate {T : Type} (input : AnnotateInput T) :
    (annotate input).data = input.data ∧
    (input.time = none →
      (annotate input).timeBand = none ∧ (annotate input).annotated_at = none) ∧
    (∀ t, input.time = some t →
      (annotate input).annotated_at = some (toISOString t) ∧
      (getHours t < 5 → (annotate input).timeBand = some TimeBand.night) ∧
      (5 ≤ getHours t → getHours t < 11 → (annotate input).timeBand = some TimeBand.morning) ∧
      (11 ≤ getHours t → getHours t < 17 → (annotate input).timeBand = some TimeBand.afternoon) ∧
      (17 ≤ getHours t → (annotate input).timeBand = some TimeBand.evening)) := by
  refine ⟨rfl, ?_, ?_⟩
  · intro ht
    simp [annotate, ht]
  · intro t ht
    refine ⟨by simp [annotate, ht], ?_, ?_, ?_, ?_⟩
    · intro h1
      simp [annotate, ht, h1]
    · intro h1 h2
      simp [annotate, ht]
      rw [if_neg (by omega), if_pos (by omega)]
    · intro h1 h2
      simp [annotate, ht]
      rw [if_neg (by omega), if_neg (by omega), if_pos (by omega)]
    · intro h1
      simp [annotate, ht]
      rw [if_neg (by omega), if_neg (by omega), if_neg (by omega)]

theorem C10_annotate_witness :
    (annotate { data := (42 : Int), time := some (mkDate 2025 0 1 6 0 0 0) }).data = 42 ∧
    (annotate { data := (42 : Int), time := some (mkDate 2025 0 1 6 0 0 0) }).timeBand
      = some TimeBand.morning ∧
    (annotate { data := (42 : Int), time := some (mkDate 2025 0 1 6 0 0 0) }).annotated_at
      = some (toISOString (mkDate 2025 0 1 6 0 0 0)) :=
  ⟨(C10_annotate _).1,
   ((C10_annotate _).2.2 _ rfl).2.2.1 (by decide) (by decide),
   ((C10_annotate _).2.2 _ rfl).1⟩

/-! ## `timeService` (src/timeService.ts) -/

inductive TimeMode
  | off
  | snapshot
  | interval
deriving DecidableEq, Repr

/-- A present `freezeTo` value: `null`, a `Date`, a string, or an epoch number. -/
inductive FreezeVal
  | null
  | date (ms : Int)
  | str (s : String)
  | num (ms : Int)
deriving DecidableEq, Repr

/-- Source `TimeConfig`. All fields are optional at runtime: the merge in
`inputCore` can produce entries without `mode`, so the stored shape keeps
every field optional (the TS type's required `mode` is not enforced by the
spreads). -/
structure TimeConfig where
  mode : Option TimeMode := none
  intervalMs : Option Int := none
  freezeTo : Option FreezeVal := none
deriving DecidableEq, Repr

def digitVal (c : Char) : Option Nat :=
  if c.isDigit then some (c.toNat - 48) else none

/-- Read exactly `n` digits into an accumulator. -/
def readDigits : Nat → Nat → List Char → Option (Nat × List Char)
  | 0, acc, cs => some (acc, cs)
  | n + 1, acc, c :: cs =>
    match digitVal c with
    | some d => readDigits n (10 * acc + d) cs
    | none => none
  | _ + 1, _, [] => none

def readChar (ch : Char) : List Char → Option (List Char)
  | c :: cs => if c = ch then some cs else none
  | [] => none

/-- Source `new Date(string)`: the ECMAScript Date Time String Format
`(±YYYYYY|YYYY)[-MM[-DD]][THH:mm[:ss[.sss]][Z|±HH:mm]]`; anything
non-conforming yields `none` (an Invalid Date). Times without an offset are
local, which this model equates with UTC. -/
def parseDateString (s : String) : Option Int := do
  let cs := s.toList
  let (y, cs) ←
    match cs with
    | '+' :: r => (readDigits 6 0 r).map fun p => ((p.1 : Int), p.2)
    | '-' :: r => (readDigits 6 0 r).map fun p => (-(p.1 : Int), p.2)
    | r => (readDigits 4 0 r).map fun p => ((p.1 : Int), p.2)
  let (mo, cs) ←
    match cs with
    | '-' :: r => do
      let (m, r) ← readDigits 2 0 r
      if 1 ≤ m ∧ m ≤ 12 then pure ((m : Int), r) else none
    | r => pure ((1 : Int), r)
  let (d, cs) ←
    match cs with
    | '-' :: r => do
      let (dd, r) ← readDigits 2 0 r
      if 1 ≤ dd ∧ dd ≤ 31 then pure ((dd : Int), r) else none
    | r => pure ((1 : Int), r)
  let (timeMs, offs, cs) ←
    match cs with
    | 'T' :: r => do
      let (hh, r) ← readDigits 2 0 r
      let r ← readChar ':' r
      let (mi, r) ← readDigits 2 0 r
      let (ss, ms, r) ←
        match r with
        | ':' :: r2 => do
          let (ss, r2) ← readDigits 2 0 r2
          match r2 with
          | '.' :: r3 => do
            let (ms, r3) ← readDigits 3 0 r3
            pure (ss, ms, r3)
          | _ => pure (ss, 0, r2)
        | _ => pure (0, 0, r)
      if hh ≤ 23 ∧ mi ≤ 59 ∧ ss ≤ 59 then
        let (off, r) ←
          match r with
          | [] => pure ((0 : Int), ([] : List Char))
          | 'Z' :: r2 => pure ((0 : Int), r2)
          | '+' :: r2 => do
            let (oh, r2) ← readDigits 2 0 r2
            let r2 ← readChar ':' r2
            let (om, r2) ← readDigits 2 0 r2
            if oh ≤ 23 ∧ om ≤ 59 then pure (((oh : Int) * 60 + (om : Int)) * 60000, r2) else none
          | '-' :: r2 => do
            let (oh, r2) ← readDigits 2 0 r2
            let r2 ← readChar ':' r2
            let (om, r2) ← readDigits 2 0 r2
            if oh ≤ 23 ∧ om ≤ 59 then pure (-(((oh : Int) * 60 + (om : Int)) * 60000), r2) else none
          | _ => none
        pure ((hh : Int) * msPerHour + (mi : Int) * msPerMinute + (ss : Int) * msPerSecond
          + (ms : Int), off, r)
      else none
    | r => pure ((0 : Int), (0 : Int), r)
  if cs = [] then
    pure (makeDay y (mo - 1) d * msPerDay + timeMs - offs)
  else none

/-- Source `resolveNow`: `undefined`/`null` → wall clock, `Date` → its instant,
number → `TimeClip`'d instant, string → parsed instant; `wall` models the
fresh `new Date()` read. An invalid result is `none` (Invalid Date). -/
def resolveNow (freezeTo : Option FreezeVal) (wall : Int) : Option Int :=
  match freezeTo with
  | none => some wall
  | some FreezeVal.null => some wall
  | some (FreezeVal.date d) => some d
  | some (FreezeVal.num n) =>
    if -8640000000000000 ≤ n ∧ n ≤ 8640000000000000 then some n else none
  | some (FreezeVal.str s) => parseDateString s

/-- Source `createTimeAdapter(cfg).now()` as a function of the wall clock: the
snapshot/off branch and the interval branch both answer with the same
`baseNow = resolveNow(cfg.freezeTo ?? null)`. -/
def adapterNow (cfg : TimeConfig) (wall : Int) : Option Int :=
  if cfg.mode = some TimeMode.snapshot ∨ cfg.mode = some TimeMode.off then
    resolveNow (some (cfg.freezeTo.getD FreezeVal.null)) wall
  else
    resolveNow (some (cfg.freezeTo.getD FreezeVal.null)) wall

theorem adapterNow_eq (cfg : TimeConfig) (wall : Int) :
    adapterNow cfg wall = resolveNow (some (cfg.freezeTo.getD FreezeVal.null)) wall := by
  unfold adapterNow
  split <;> rfl

/-- Claim C6: with `freezeTo` set, `now()` answers with exactly the frozen
instant — independent of wall-clock time (call count / elapsed time) and of
the mode; an unparseable string yields an invalid instant (`none`), never a
wall-clock fallback, and never a failure. -/
theorem C6_freeze_semantics (cfg : TimeConfig) (fv : FreezeVal)
    (hf : cfg.freezeTo = some fv) (hnn : fv ≠ FreezeVal.null) :
    (∀ wall wall' m m',
      adapterNow { cfg with mode := m } wall = adapterNow { cfg with mode := m' } wall') ∧
    (∀ wall d, fv = FreezeVal.date d → adapterNow cfg wall = some d) ∧
    (∀ wall n, fv = FreezeVal.num n → -8640000000000000 ≤ n → n ≤ 8640000000000000 →
      adapterNow cfg wall = some n) ∧
    (∀ wall s, fv = FreezeVal.str s → adapterNow cfg wall = parseDateString s) ∧
    (∀ wall s, fv = FreezeVal.str s → parseDateString s = none → adapterNow cfg wall = none) := by
  have key : ∀ (m : Option TimeMode) (wall : Int),
      adapterNow { cfg with mode := m } wall = resolveNow (some fv) wall := by
    intro m wall
    rw [adapterNow_eq]
    simp [hf]
  have keyc : ∀ wall : Int, adapterNow cfg wall = resolveNow (some fv) wall := by
    intro wall
    rw [adapterNow_eq]
    simp [hf]
  refine ⟨?_, ?_, ?_, ?_, ?_⟩
  · intro wall wall' m m'
    rw [key m wall, key m' wall']
    cases fv with
    | null => exact absurd rfl hnn
    | date d => rfl
    | str s => rfl
    | num n => rfl
  · intro wall d hd
    rw [keyc wall, hd]
    rfl
  · intro wall n hn h1 h2
    rw [keyc wall, hn]
    simp [resolveNow, h1, h2]
  · intro wall s hs
    rw [keyc wall, hs]
    rfl
  · intro wall s hs hp
    rw [keyc wall, hs]
    exact hp

theorem C6_freeze_semantics_witness :
    adapterNow { mode := some TimeMode.interval, freezeTo := some (FreezeVal.date 123) } 999
      = some 123 ∧
    adapterNow { mode := some TimeMode.snapshot, freezeTo := some (FreezeVal.str "not-a-date") } 555
      = none :=
  ⟨(C6_freeze_semantics _ (FreezeVal.date 123) rfl (by decide)).2.1 999 123 rfl,
   (C6_freeze_semantics _ (FreezeVal.str "not-a-date") rfl (by decide)).2.2.2.2 555 _ rfl
     (by decide)⟩

/-! The interval adapter's subscription machinery: a `Set` of callbacks
(identified by ids; JS `Set` holds no duplicates) plus its repeating timer. -/

structure IntervalAdapterState where
  listeners : List Nat
  timerOn : Bool
deriving DecidableEq, Repr

/-- Source `listeners.add(cb)`. -/
def addListener (l : List Nat) (cb : Nat) : List Nat :=
  if cb ∈ l then l else l ++ [cb]

/-- Source `subscribe(cb)`: register the callback and immediately deliver one
synchronous notification carrying the adapter's current instant. The second
component lists the notifications emitted during registration. -/
def subscribe (cfg : TimeConfig) (st : IntervalAdapterState) (cb : Nat) (wall : Int) :
    IntervalAdapterState × List (Nat × Option Int) :=
  ({ st with listeners := addListener st.listeners cb }, [(cb, adapterNow cfg wall)])

/-- The unsubscribe closure returned by `subscribe`: `listeners.delete(cb)`. -/
def unsubscribe (st : IntervalAdapterState) (cb : Nat) : IntervalAdapterState :=
  { st with listeners := st.listeners.filter (fun c => c ≠ cb) }

/-- One timer tick: every subscriber is notified with the current instant. -/
def tick (cfg : TimeConfig) (st : IntervalAdapterState) (wall : Int) :
    List (Nat × Option Int) :=
  st.listeners.map (fun c => (c, adapterNow cfg wall))

/-- Claim C9: `subscribe` notifies the new callback exactly once,
synchronously, with the adapter's current instant; its unsubscribe handle
removes only that callback — other subscribers keep receiving ticks and the
timer keeps running. -/
theorem C9_subscribe_unsubscribe (cfg : TimeConfig) (st : IntervalAdapterState)
    (cb : Nat) (wall : Int) :
    (subscribe cfg st cb wall).2 = [(cb, adapterNow cfg wall)] ∧
    cb ∈ (subscribe cfg st cb wall).1.listeners ∧
    (unsubscribe (subscribe cfg st cb wall).1 cb).timerOn = st.timerOn ∧
    cb ∉ (unsubscribe (subscribe cfg st cb wall).1 cb).listeners ∧
    (∀ c, c ≠ cb →
      (c ∈ (unsubscribe (subscribe cfg st cb wall).1 cb).listeners ↔ c ∈ st.listeners)) ∧
    (∀ c v, (c, v) ∈ tick cfg (unsubscribe (subscribe cfg st cb wall).1 cb) wall ↔
      (c ∈ (unsubscribe (subscribe cfg st cb wall).1 cb).listeners ∧ v = adapterNow cfg wall)) := by
  refine ⟨rfl, ?_, rfl, ?_, ?_, ?_⟩
  · unfold subscribe addListener
    dsimp only
    split
    · assumption
    · simp
  · unfold unsubscribe
    simp [List.mem_filter]
  · intro c hc
    unfold unsubscribe subscribe addListener
    dsimp only
    split
    · simp [List.mem_filter, hc]
    · simp [List.mem_filter, hc]
  · intro c v
    unfold tick
    simp only [List.mem_map, Prod.mk.injEq]
    constructor
    · rintro ⟨a, ha, hac, hav⟩
      exact ⟨hac ▸ ha, hav.symm⟩
    · rintro ⟨hc, hv⟩
      exact ⟨c, hc, rfl, hv.symm⟩

theorem C9_subscribe_unsubscribe_witness :
    (subscribe { mode := some TimeMode.interval } ⟨[7], true⟩ 3 0).2 = [(3, some 0)] ∧
    (7 ∈ (unsubscribe (subscribe { mode := some TimeMode.interval } ⟨[7], true⟩ 3 0).1 3).listeners
      ↔ 7 ∈ [7]) :=
  ⟨(C9_subscribe_unsubscribe _ _ _ _).1,
   (C9_subscribe_unsubscribe { mode := some TimeMode.interval } ⟨[7], true⟩ 3 0).2.2.2.2.1 7
     (by decide)⟩

/-! ## `inputCore` and the `MashOS` facade (src/inputCore.ts)

Adapters are identified by a creation counter `id` so that instance
replacement and timer disposal are observable; `activeTimers` holds the ids
of running interval timers. -/

inductive Feature
  | input
  | myweb
  | flower
deriving DecidableEq, Repr

structure EmotionEntry where
  emotions : List String
  memo : Option String
  created_at : Option String
deriving DecidableEq, Repr

structure BuildEntryPayload where
  emotions : List String
  memo : Option String := none
deriving DecidableEq, Repr

/-- Source `buildEntry`: attach `created_at` only when a time source is supplied;
the optional argument is the source's current instant. (An adapter whose
`now()` is an Invalid Date is modeled as an absent timestamp.) -/
def buildEntry (payload : BuildEntryPayload) (time : Option Int) : EmotionEntry :=
  { emotions := payload.emotions, memo := payload.memo,
    created_at := time.map toISOString }

structure TimeBlock where
  default : TimeConfig
  perFeature : Feature → Option TimeConfig

structure MashOSConfig where
  time : TimeBlock

/-- A partial configure payload: optional default patch and optional
per-feature patch map (a patch is a `TimeConfig`, all of whose fields are
optional). -/
structure TimeBlockPatch where
  default : Option TimeConfig := none
  perFeature : Option (Feature → Option TimeConfig) := none

structure MashOSConfigPatch where
  time : Option TimeBlockPatch := none

/-- Source `JSON.parse(JSON.stringify(_))` on a `freezeTo` value: a `Date` is
serialized through `toJSON` into its ISO string; other values survive. -/
def jsonFreezeVal : FreezeVal → FreezeVal
  | FreezeVal.date d => FreezeVal.str (toISOString d)
  | v => v

def jsonTimeConfig (c : TimeConfig) : TimeConfig :=
  { c with freezeTo := c.freezeTo.map jsonFreezeVal }

def jsonConfig (c : MashOSConfig) : MashOSConfig :=
  { time := { default := jsonTimeConfig c.time.default,
              perFeature := fun f => (c.time.perFeature f).map jsonTimeConfig } }

/-- Source `{ ...prev, ...patch }` on one optional field. -/
def patchField {α : Type} (prev p : Option α) : Option α :=
  match p with
  | some v => some v
  | none => prev

/-- Source `{ ...prev, ...patch }` at the `TimeConfig` level. -/
def mergeTimeConfig (prev p : TimeConfig) : TimeConfig :=
  { mode := patchField prev.mode p.mode,
    intervalMs := patchField prev.intervalMs p.intervalMs,
    freezeTo := patchField prev.freezeTo p.freezeTo }

/-- Source `mergeConfig`: deep-copy the base through JSON, then merge the patch's
default and the mentioned per-feature entries (`prev || {}`). -/
def mergeConfig (base : MashOSConfig) (next : MashOSConfigPatch) : MashOSConfig :=
  let out := jsonConfig base
  match next.time with
  | none => out
  | some tb =>
    let defMerged :=
      match tb.default with
      | some pd => mergeTimeConfig out.time.default pd
      | none => out.time.default
    let pfMerged :=
      match tb.perFeature with
      | none => out.time.perFeature
      | some pf => fun f =>
        match pf f with
        | some patch => some (mergeTimeConfig ((out.time.perFeature f).getD {}) patch)
        | none => out.time.perFeature f
    { time := { default := defMerged, perFeature := pfMerged } }

/-- Source `resolveTimeConfig`: the per-feature override, else the default. -/
def resolveTimeConfig (c : MashOSConfig) (f : Feature) : TimeConfig :=
  (c.time.perFeature f).getD c.time.default

structure Adapter where
  cfg : TimeConfig
  id : Nat
deriving DecidableEq, Repr

structure OSState where
  config : MashOSConfig
  timeMap : Feature → Option Adapter
  activeTimers : List Nat
  nextId : Nat

def FEATURES : List Feature := [Feature.input, Feature.myweb, Feature.flower]

/-- Whether `createTimeAdapter` takes its interval branch (and thus owns a
timer and a disposer): every mode other than `'snapshot'`/`'off'`. -/
def isIntervalCfg (cfg : TimeConfig) : Bool :=
  !(cfg.mode == some TimeMode.snapshot || cfg.mode == some TimeMode.off)

/-- Ids of the timers owned by the current adapters (the registered
disposers). -/
def currentTimerIds (st : OSState) : List Nat :=
  FEATURES.filterMap fun f =>
    (st.timeMap f).bind fun a => if isIntervalCfg a.cfg then some a.id else none

def updateMap (m : Feature → Option Adapter) (f : Feature) (v : Option Adapter) :
    Feature → Option Adapter :=
  fun g => if g = f then v else m g

/-- The rebuild phase of `rebuildTimeAdapters`: walk the feature list; an
`'off'` feature gets no adapter, every other feature gets a fresh adapter
(fresh id, timer registered when the interval branch is taken). -/
def rebuildLoop : List Feature → OSState → OSState
  | [], st => st
  | f :: rest, st =>
    let tc := resolveTimeConfig st.config f
    if tc.mode = some TimeMode.off then
      rebuildLoop rest { st with timeMap := updateMap st.timeMap f none }
    else
      rebuildLoop rest
        { st with
          timeMap := updateMap st.timeMap f (some { cfg := tc, id := st.nextId }),
          nextId := st.nextId + 1,
          activeTimers :=
            if isIntervalCfg tc then st.activeTimers ++ [st.nextId] else st.activeTimers }

/-- Source `rebuildTimeAdapters`: dispose every existing adapter's timer, then
rebuild all feature adapters from the resolved configuration. -/
def rebuildTimeAdapters (st : OSState) : OSState :=
  rebuildLoop FEATURES
    { st with activeTimers := st.activeTimers.filter (fun i => i ∉ currentTimerIds st) }

/-- The module-initialization state: default snapshot config, adapters built
once at load. -/
def initialState : OSState :=
  rebuildTimeAdapters
    { config := { time := { default := { mode := some TimeMode.snapshot },
                            perFeature := fun _ => none } },
      timeMap := fun _ => none, activeTimers := [], nextId := 0 }

/-- Source `MashOS.configure`: merge, then rebuild every adapter. -/
def configure (st : OSState) (next : MashOSConfigPatch) : OSState :=
  rebuildTimeAdapters { st with config := mergeConfig st.config next }

/-- Source `timeMap.myweb?.now() ?? new Date()`. -/
def mywebNow (st : OSState) (wall : Int) : Option Int :=
  match st.timeMap Feature.myweb with
  | some a => adapterNow a.cfg wall
  | none => some wall

/-- Source `MashOS.myweb.isWeeklyReportNow` (an Invalid Date makes the comparisons
false). -/
def isWeeklyReportNow (st : OSState) (wall : Int) : Bool :=
  match mywebNow st wall with
  | some d => isWeeklyReportTrigger d
  | none => false

def isMonthlyReportNow (st : OSState) (wall : Int) : Bool :=
  match mywebNow st wall with
  | some d => isMonthlyReportTrigger d
  | none => false

def completedWeeklyRangeForNow (st : OSState) (wall : Int) : Option PeriodRange :=
  (mywebNow st wall).map getCompletedWeeklyRangeFrom

def completedMonthlyRangeForNow (st : OSState) (wall : Int) : Option PeriodRange :=
  (mywebNow st wall).map getCompletedMonthlyRangeFrom

def currentWeeklyRange (st : OSState) (wall : Int) : Option PeriodRange :=
  (mywebNow st wall).map getCurrentWeeklyRangeContaining

def currentMonthlyRange (st : OSState) (wall : Int) : Option PeriodRange :=
  (mywebNow st wall).map getCurrentMonthlyRangeContaining

/-- Source `MashOS.input.buildEntry`: threads `timeMap.input` into `buildEntry`. -/
def inputBuildEntry (st : OSState) (payload : BuildEntryPayload) (wall : Int) : EmotionEntry :=
  buildEntry payload ((st.timeMap Feature.input).bind fun a => adapterNow a.cfg wall)

/-- Source `MashOS.flower.annotate`. -/
def flowerAnnotate {T : Type} (st : OSState) (data : T) (wall : Int) : Annotation T :=
  annotate { data := data,
             time := (st.timeMap Feature.flower).bind fun a => adapterNow a.cfg wall }

/-- Source `MashOS.flower.analyze`. -/
def flowerAnalyze (st : OSState) (emotions : List EmotionWithStrength)
    (memo : Option String) (wall : Int) : FlowerState :=
  analyze { emotions := emotions, memo := memo,
            time := (st.timeMap Feature.flower).bind fun a => adapterNow a.cfg wall }

/-- One iteration of the rebuild loop's body, for reasoning about the fold. -/
def rebuildStep (g : Feature) (st : OSState) : OSState :=
  let tc := resolveTimeConfig st.config g
  if tc.mode = some TimeMode.off then
    { st with timeMap := updateMap st.timeMap g none }
  else
    { st with
      timeMap := updateMap st.timeMap g (some { cfg := tc, id := st.nextId }),
      nextId := st.nextId + 1,
      activeTimers :=
        if isIntervalCfg tc then st.activeTimers ++ [st.nextId] else st.activeTimers }

theorem rebuildLoop_cons (g : Feature) (rest : List Feature) (st : OSState) :
    rebuildLoop (g :: rest) st = rebuildLoop rest (rebuildStep g st) := by
  conv_lhs => rw [rebuildLoop]
  unfold rebuildStep
  dsimp only
  split
  · rfl
  · rfl

theorem rebuildStep_config (g : Feature) (st : OSState) :
    (rebuildStep g st).config = st.config := by
  unfold rebuildStep
  dsimp only
  split <;> rfl

theorem rebuildStep_nextId (g : Feature) (st : OSState) :
    st.nextId ≤ (rebuildStep g st).nextId := by
  unfold rebuildStep
  dsimp only
  split
  · exact le_refl _
  · exact Nat.le_succ _

theorem rebuildStep_frame (g : Feature) (st : OSState) (f : Feature) (hne : f ≠ g) :
    (rebuildStep g st).timeMap f = st.timeMap f := by
  unfold rebuildStep
  dsimp only
  split <;> simp [updateMap, hne]

theorem rebuildStep_self (g : Feature) (st : OSState) :
    ((resolveTimeConfig st.config g).mode = some TimeMode.off →
      (rebuildStep g st).timeMap g = none) ∧
    ((resolveTimeConfig st.config g).mode ≠ some TimeMode.off →
      (rebuildStep g st).timeMap g
        = some { cfg := resolveTimeConfig st.config g, id := st.nextId }) := by
  unfold rebuildStep
  dsimp only
  constructor
  · intro hoff
    rw [if_pos hoff]
    simp [updateMap]
  · intro hno
    rw [if_neg hno]
    simp [updateMap]

theorem rebuildLoop_config (fs : List Feature) : ∀ (st : OSState),
    (rebuildLoop fs st).config = st.config := by
  induction fs with
  | nil => intro st; rfl
  | cons f rest ih =>
    intro st
    rw [rebuildLoop_cons, ih, rebuildStep_config]

theorem rebuildLoop_frame (fs : List Feature) : ∀ (st : OSState) (f : Feature),
    f ∉ fs → (rebuildLoop fs st).timeMap f = st.timeMap f := by
  induction fs with
  | nil => intro st f _; rfl
  | cons g rest ih =>
    intro st f hf
    have hne : f ≠ g := fun h => hf (h ▸ List.mem_cons_self g rest)
    have hrest : f ∉ rest := fun h => hf (List.mem_cons_of_mem g h)
    rw [rebuildLoop_cons, ih _ f hrest, rebuildStep_frame g st f hne]

theorem rebuildLoop_sets (fs : List Feature) : ∀ (st : OSState) (f : Feature), f ∈ fs →
    ((resolveTimeConfig st.config f).mode = some TimeMode.off →
      (rebuildLoop fs st).timeMap f = none) ∧
    ((resolveTimeConfig st.config f).mode ≠ some TimeMode.off →
      ∃ i, st.nextId ≤ i ∧
        (rebuildLoop fs st).timeMap f = some { cfg := resolveTimeConfig st.config f, id := i }) := by
  induction fs with
  | nil => intro st f hf; exact absurd hf (List.not_mem_nil f)
  | cons g rest ih =>
    intro st f hf
    rw [rebuildLoop_cons]
    by_cases hmem : f ∈ rest
    · have h := ih (rebuildStep g st) f hmem
      rw [rebuildStep_config] at h
      refine ⟨h.1, ?_⟩
      intro hno
      obtain ⟨i, hi, hmap⟩ := h.2 hno
      exact ⟨i, le_trans (rebuildStep_nextId g st) hi, hmap⟩
    · have hfg : f = g := by
        rcases List.mem_cons.mp hf with h | h
        · exact h
        · exact absurd h hmem
      subst hfg
      constructor
      · intro hoff
        rw [rebuildLoop_frame rest _ f hmem]
        exact (rebuildStep_self f st).1 hoff
      · intro hno
        refine ⟨st.nextId, le_refl _, ?_⟩
        rw [rebuildLoop_frame rest _ f hmem]
        exact (rebuildStep_self f st).2 hno

theorem mem_FEATURES (f : Feature) : f ∈ FEATURES := by
  cases f <;> decide

/-- A feature's adapter is absent after a rebuild exactly when its effective
mode is `'off'`. -/
theorem rebuild_timeMap_none_iff (st : OSState) (f : Feature) :
    (rebuildTimeAdapters st).timeMap f = none ↔
      (resolveTimeConfig st.config f).mode = some TimeMode.off := by
  unfold rebuildTimeAdapters
  have h := rebuildLoop_sets FEATURES
    { st with activeTimers := st.activeTimers.filter (fun i => i ∉ currentTimerIds st) }
    f (mem_FEATURES f)
  constructor
  · intro hnone
    by_contra hno
    obtain ⟨i, _, hmap⟩ := h.2 hno
    rw [hmap] at hnone
    exact Option.noConfusion hnone
  · intro hoff
    exact h.1 hoff

/-- Any adapter present after a rebuild carries the newly resolved config and
a fresh id. -/
theorem rebuild_adapter_fresh (st : OSState) (f : Feature) (a : Adapter)
    (ha : (rebuildTimeAdapters st).timeMap f = some a) :
    a.cfg = resolveTimeConfig st.config f ∧ st.nextId ≤ a.id := by
  unfold rebuildTimeAdapters at ha
  have h := rebuildLoop_sets FEATURES
    { st with activeTimers := st.activeTimers.filter (fun i => i ∉ currentTimerIds st) }
    f (mem_FEATURES f)
  by_cases hoff : (resolveTimeConfig st.config f).mode = some TimeMode.off
  · rw [h.1 hoff] at ha
    exact Option.noConfusion ha
  · obtain ⟨i, hi, hmap⟩ := h.2 hoff
    rw [hmap] at ha
    cases ha
    exact ⟨rfl, hi⟩

/-- Claim C2, amended: a feature whose effective mode is `'off'` has no
adapter after the rebuild and every facade operation still succeeds, but
only the `myweb` operations substitute a direct wall-clock read; `input`
omits `created_at` and `flower` omits `timeBand`/`annotated_at` instead. -/
theorem C2_off_mode (st₀ : OSState) (f : Feature) (wall : Int)
    (hoff : (resolveTimeConfig st₀.config f).mode = some TimeMode.off) :
    (rebuildTimeAdapters st₀).timeMap f = none ∧
    (f = Feature.myweb →
      mywebNow (rebuildTimeAdapters st₀) wall = some wall ∧
      isWeeklyReportNow (rebuildTimeAdapters st₀) wall = isWeeklyReportTrigger wall ∧
      isMonthlyReportNow (rebuildTimeAdapters st₀) wall = isMonthlyReportTrigger wall ∧
      completedWeeklyRangeForNow (rebuildTimeAdapters st₀) wall
        = some (getCompletedWeeklyRangeFrom wall) ∧
      completedMonthlyRangeForNow (rebuildTimeAdapters st₀) wall
        = some (getCompletedMonthlyRangeFrom wall) ∧
      currentWeeklyRange (rebuildTimeAdapters st₀) wall
        = some (getCurrentWeeklyRangeContaining wall) ∧
      currentMonthlyRange (rebuildTimeAdapters st₀) wall
        = some (getCurrentMonthlyRangeContaining wall)) ∧
    (f = Feature.input → ∀ payload,
      inputBuildEntry (rebuildTimeAdapters st₀) payload wall
        = { emotions := payload.emotions, memo := payload.memo, created_at := none }) ∧
    (f = Feature.flower →
      (∀ es memo, (flowerAnalyze (rebuildTimeAdapters st₀) es memo wall).annotated_at = none) ∧
      (∀ (T : Type) (data : T),
        (flowerAnnotate (rebuildTimeAdapters st₀) data wall).timeBand = none ∧
        (flowerAnnotate (rebuildTimeAdapters st₀) data wall).annotated_at = none)) := by
  have hnone : (rebuildTimeAdapters st₀).timeMap f = none :=
    (rebuild_timeMap_none_iff st₀ f).mpr hoff
  refine ⟨hnone, ?_, ?_, ?_⟩
  · rintro rfl
    have hmw : mywebNow (rebuildTimeAdapters st₀) wall = some wall := by
      unfold mywebNow
      rw [hnone]
    refine ⟨hmw, ?_, ?_, ?_, ?_, ?_, ?_⟩
    · unfold isWeeklyReportNow
      rw [hmw]
    · unfold isMonthlyReportNow
      rw [hmw]
    · unfold completedWeeklyRangeForNow
      rw [hmw]
      rfl
    · unfold completedMonthlyRangeForNow
      rw [hmw]
      rfl
    · unfold currentWeeklyRange
      rw [hmw]
      rfl
    · unfold currentMonthlyRange
      rw [hmw]
      rfl
  · rintro rfl payload
    unfold inputBuildEntry buildEntry
    rw [hnone]
    rfl
  · rintro rfl
    constructor
    · intro es memo
      unfold flowerAnalyze
      rw [hnone]
      rfl
    · intro T data
      unfold flowerAnnotate
      rw [hnone]
      exact ⟨rfl, rfl⟩

/-- A pre-rebuild state whose default mode is `'off'` (used to exercise the
off-mode behavior of the facade). -/
def offBaseState : OSState :=
  { config := { time := { default := { mode := some TimeMode.off },
                          perFeature := fun _ => none } },
    timeMap := fun _ => none, activeTimers := [], nextId := 0 }

theorem C2_off_mode_witness :
    (rebuildTimeAdapters offBaseState).timeMap Feature.flower = none ∧
    (flowerAnalyze (rebuildTimeAdapters offBaseState) [] none 0).annotated_at = none ∧
    mywebNow (rebuildTimeAdapters offBaseState) 5 = some 5 :=
  ⟨(C2_off_mode offBaseState Feature.flower 0 rfl).1,
   ((C2_off_mode offBaseState Feature.flower 0 rfl).2.2.2 rfl).1 [] none,
   ((C2_off_mode offBaseState Feature.myweb 5 rfl).2.1 rfl).1⟩

/-- Claim C2 counterexample: with `flower` in `'off'` mode the analyzer's
time-dependent output `annotated_at` is absent, not a wall-clock read — the
same call with a time source present stamps the instant. -/
theorem C2_cex :
    (flowerAnalyze (rebuildTimeAdapters offBaseState) [] none 0).annotated_at = none ∧
    (analyze { emotions := [], memo := none, time := some 0 }).annotated_at
      = some (toISOString 0) ∧
    (none : Option String) ≠ some (toISOString 0) :=
  ⟨rfl, rfl, by simp⟩

/-! ## Claim C8: configure/merge/rebuild -/

/-- Facade well-formedness: adapter ids and timer ids stay below the id
counter. -/
def WFState (st : OSState) : Prop :=
  (∀ f a, st.timeMap f = some a → a.id < st.nextId) ∧
  (∀ i ∈ st.activeTimers, i < st.nextId)

theorem rebuildStep_nextId_eq (g : Feature) (st : OSState) :
    (rebuildStep g st).nextId =
      if (resolveTimeConfig st.config g).mode = some TimeMode.off then st.nextId
      else st.nextId + 1 := by
  unfold rebuildStep
  dsimp only
  split
  · rfl
  · rfl

theorem rebuildStep_timers (g : Feature) (st : OSState) :
    ∀ i ∈ (rebuildStep g st).activeTimers,
      i ∈ st.activeTimers ∨ (i = st.nextId ∧ (rebuildStep g st).nextId = st.nextId + 1) := by
  by_cases hoff : (resolveTimeConfig st.config g).mode = some TimeMode.off
  · intro i hi
    left
    have htm : (rebuildStep g st).activeTimers = st.activeTimers := by
      unfold rebuildStep
      dsimp only
      rw [if_pos hoff]
    rwa [htm] at hi
  · have hnid : (rebuildStep g st).nextId = st.nextId + 1 := by
      rw [rebuildStep_nextId_eq, if_neg hoff]
    have htm : (rebuildStep g st).activeTimers =
        if isIntervalCfg (resolveTimeConfig st.config g) then st.activeTimers ++ [st.nextId]
        else st.activeTimers := by
      unfold rebuildStep
      dsimp only
      rw [if_neg hoff]
    intro i hi
    rw [htm] at hi
    split at hi
    · rcases List.mem_append.mp hi with h | h
      · exact Or.inl h
      · exact Or.inr ⟨List.mem_singleton.mp h, hnid⟩
    · exact Or.inl hi

theorem rebuildLoop_timers (fs : List Feature) : ∀ (st : OSState) (i : Nat),
    i ∈ (rebuildLoop fs st).activeTimers → i ∈ st.activeTimers ∨ st.nextId ≤ i := by
  induction fs with
  | nil => intro st i hi; exact Or.inl hi
  | cons g rest ih =>
    intro st i hi
    rw [rebuildLoop_cons] at hi
    rcases ih (rebuildStep g st) i hi with h | h
    · rcases rebuildStep_timers g st i h with h2 | ⟨h2, -⟩
      · exact Or.inl h2
      · exact Or.inr (le_of_eq h2.symm)
    · exact Or.inr (le_trans (rebuildStep_nextId g st) h)

theorem rebuildStep_WF (g : Feature) (st : OSState) (h : WFState st) :
    WFState (rebuildStep g st) := by
  obtain ⟨h1, h2⟩ := h
  have hmono : st.nextId ≤ (rebuildStep g st).nextId := rebuildStep_nextId g st
  constructor
  · intro f a ha
    by_cases hf : f = g
    · subst hf
      by_cases hoff : (resolveTimeConfig st.config f).mode = some TimeMode.off
      · rw [(rebuildStep_self f st).1 hoff] at ha
        exact Option.noConfusion ha
      · rw [(rebuildStep_self f st).2 hoff] at ha
        injection ha with ha2
        subst ha2
        dsimp only
        have : (rebuildStep f st).nextId = st.nextId + 1 := by
          rw [rebuildStep_nextId_eq, if_neg hoff]
        omega
    · rw [rebuildStep_frame g st f hf] at ha
      have := h1 f a ha
      omega
  · intro i hi
    rcases rebuildStep_timers g st i hi with h3 | ⟨h3, h4⟩
    · have := h2 i h3
      omega
    · omega

theorem rebuildLoop_WF (fs : List Feature) : ∀ (st : OSState),
    WFState st → WFState (rebuildLoop fs st) := by
  induction fs with
  | nil => intro st h; exact h
  | cons g rest ih =>
    intro st h
    rw [rebuildLoop_cons]
    exact ih _ (rebuildStep_WF g st h)

theorem rebuildTimeAdapters_WF (st : OSState) (h : WFState st) :
    WFState (rebuildTimeAdapters st) := by
  unfold rebuildTimeAdapters
  apply rebuildLoop_WF
  refine ⟨h.1, ?_⟩
  intro i hi
  exact h.2 i (List.mem_of_mem_filter hi)

theorem configure_WF (st : OSState) (p : MashOSConfigPatch) (h : WFState st) :
    WFState (configure st p) := by
  unfold configure
  apply rebuildTimeAdapters_WF
  exact ⟨h.1, h.2⟩

theorem initialState_WF : WFState initialState := by
  apply rebuildTimeAdapters_WF
  constructor
  · intro f a ha
    exact Option.noConfusion ha
  · intro i hi
    exact absurd hi (List.not_mem_nil i)

theorem configure_config (st : OSState) (p : MashOSConfigPatch) :
    (configure st p).config = mergeConfig st.config p := by
  unfold configure rebuildTimeAdapters
  rw [rebuildLoop_config]

theorem currentTimerIds_mem (st : OSState) (f : Feature) (a : Adapter)
    (ha : st.timeMap f = some a) (hint : isIntervalCfg a.cfg = true) :
    a.id ∈ currentTimerIds st := by
  unfold currentTimerIds
  rw [List.mem_filterMap]
  refine ⟨f, mem_FEATURES f, ?_⟩
  rw [ha]
  simp [hint]

/-- Claim C8, amended: `configure` merges field-for-field (a field present in
the patch replaces the old value, an omitted field keeps the prior one) into
the default and into every mentioned per-feature entry; an entry not
mentioned survives up to the JSON deep copy of the stored config, under
which a `Date`-valued `freezeTo` is re-stored as its ISO string; when the
patch carries no default update, a feature absent from the override map also
keeps its resolved TimeConfig up to that JSON normalization; and every
feature's adapter is rebuilt afterwards — fresh instance (new id) carrying
the newly resolved config, old interval timers disposed — even when the
feature's config did not change. -/
theorem C8_configure_merge_rebuild (st : OSState) (p : MashOSConfigPatch)
    (hwf : WFState st) :
    ((configure st p).config = mergeConfig st.config p) ∧
    (∀ prev q : TimeConfig,
      (q.mode = none → (mergeTimeConfig prev q).mode = prev.mode) ∧
      (∀ v, q.mode = some v → (mergeTimeConfig prev q).mode = some v) ∧
      (q.intervalMs = none → (mergeTimeConfig prev q).intervalMs = prev.intervalMs) ∧
      (∀ v, q.intervalMs = some v → (mergeTimeConfig prev q).intervalMs = some v) ∧
      (q.freezeTo = none → (mergeTimeConfig prev q).freezeTo = prev.freezeTo) ∧
      (∀ v, q.freezeTo = some v → (mergeTimeConfig prev q).freezeTo = some v)) ∧
    (∀ tb pd, p.time = some tb → tb.default = some pd →
      (configure st p).config.time.default
        = mergeTimeConfig (jsonTimeConfig st.config.time.default) pd) ∧
    (∀ tb, p.time = some tb → tb.default = none →
      (configure st p).config.time.default = jsonTimeConfig st.config.time.default) ∧
    (p.time = none → (configure st p).config = jsonConfig st.config) ∧
    (∀ tb pf f, p.time = some tb → tb.perFeature = some pf → pf f = none →
      (configure st p).config.time.perFeature f
        = (st.config.time.perFeature f).map jsonTimeConfig) ∧
    (∀ tb f, p.time = some tb → tb.perFeature = none →
      (configure st p).config.time.perFeature f
        = (st.config.time.perFeature f).map jsonTimeConfig) ∧
    (∀ tb pf f patch, p.time = some tb → tb.perFeature = some pf → pf f = some patch →
      (configure st p).config.time.perFeature f
        = some (mergeTimeConfig
            (((st.config.time.perFeature f).map jsonTimeConfig).getD {}) patch)) ∧
    (∀ tb pf f, p.time = some tb → tb.default = none → tb.perFeature = some pf →
      pf f = none →
      resolveTimeConfig (configure st p).config f
        = jsonTimeConfig (resolveTimeConfig st.config f)) ∧
    (∀ f a a', st.timeMap f = some a → (configure st p).timeMap f = some a' →
      a'.id ≠ a.id ∧ a'.cfg = resolveTimeConfig (mergeConfig st.config p) f) ∧
    (∀ f a, st.timeMap f = some a → isIntervalCfg a.cfg = true →
      a.id ∉ (configure st p).activeTimers) ∧
    (∀ f, (configure st p).timeMap f = none ↔
      (resolveTimeConfig (mergeConfig st.config p) f).mode = some TimeMode.off) := by
  have hc := configure_config st p
  refine ⟨hc, ?_, ?_, ?_, ?_, ?_, ?_, ?_, ?_, ?_, ?_, ?_⟩
  · intro prev q
    refine ⟨?_, ?_, ?_, ?_, ?_, ?_⟩ <;>
      first
        | (intro h; unfold mergeTimeConfig patchField; rw [h])
        | (intro v h; unfold mergeTimeConfig patchField; rw [h])
  · intro tb pd htb hpd
    rw [hc]
    unfold mergeConfig
    rw [htb]
    dsimp only
    rw [hpd]
    rfl
  · intro tb htb hdn
    rw [hc]
    unfold mergeConfig
    rw [htb]
    dsimp only
    rw [hdn]
    rfl
  · intro hnone
    rw [hc]
    unfold mergeConfig
    rw [hnone]
  · intro tb pf f htb hpf hf
    rw [hc]
    unfold mergeConfig
    rw [htb]
    dsimp only
    rw [hpf]
    dsimp only
    rw [hf]
    rfl
  · intro tb f htb hpf
    rw [hc]
    unfold mergeConfig
    rw [htb]
    dsimp only
    rw [hpf]
    rfl
  · intro tb pf f patch htb hpf hf
    rw [hc]
    unfold mergeConfig
    rw [htb]
    dsimp only
    rw [hpf]
    dsimp only
    rw [hf]
    rfl
  · intro tb pf f htb hdn hpf hf
    rw [hc]
    unfold mergeConfig
    rw [htb]
    dsimp only
    rw [hdn, hpf]
    dsimp only
    unfold resolveTimeConfig
    dsimp only
    rw [hf]
    unfold jsonConfig
    dsimp only
    cases hper : st.config.time.perFeature f with
    | none => simp
    | some c => simp
  · intro f a a' ha ha'
    have hfr := rebuild_adapter_fresh { st with config := mergeConfig st.config p } f a' ha'
    dsimp only at hfr
    have hid := hwf.1 f a ha
    exact ⟨by omega, hfr.1⟩
  · intro f a ha hint
    intro hmem
    unfold configure rebuildTimeAdapters at hmem
    rcases rebuildLoop_timers FEATURES _ a.id hmem with h | h
    · dsimp only at h
      rw [List.mem_filter] at h
      have hcur : a.id ∈ currentTimerIds { st with config := mergeConfig st.config p } :=
        currentTimerIds_mem _ f a ha hint
      simp at h
      exact h.2 hcur
    · dsimp only at h
      have := hwf.1 f a ha
      omega
  · intro f
    exact rebuild_timeMap_none_iff { st with config := mergeConfig st.config p } f

/-- A configure payload switching the default mode to interval. -/
def patchInterval : MashOSConfigPatch :=
  { time := some { default := some { mode := some TimeMode.interval }, perFeature := none } }

theorem C8_configure_merge_rebuild_witness :
    ({ cfg := { mode := some TimeMode.interval }, id := 3 } : Adapter).id
      ≠ ({ cfg := { mode := some TimeMode.snapshot }, id := 0 } : Adapter).id := by
  obtain ⟨-, -, -, -, -, -, -, -, -, hfresh, -, -⟩ :=
    C8_configure_merge_rebuild initialState patchInterval initialState_WF
  exact (hfresh Feature.input { cfg := { mode := some TimeMode.snapshot }, id := 0 }
    { cfg := { mode := some TimeMode.interval }, id := 3 } (by decide) (by decide)).1

/-- A state whose stored default carries a `Date`-valued `freezeTo`. -/
def dateFreezeState : OSState :=
  configure initialState
    { time := some { default := some { mode := some TimeMode.snapshot,
                                       freezeTo := some (FreezeVal.date 0) },
                     perFeature := none } }

/-- Claim C8 counterexample: reconfiguring with a partial that omits a
feature does not leave that feature's resolved TimeConfig unchanged in
content — the JSON deep copy turns a `Date`-valued `freezeTo` into its ISO
string, and a default update also reaches features without overrides. -/
theorem C8_cex :
    resolveTimeConfig (configure dateFreezeState { time := none }).config Feature.input
      ≠ resolveTimeConfig dateFreezeState.config Feature.input ∧
    (resolveTimeConfig (configure dateFreezeState { time := none }).config Feature.input).freezeTo
      = some (FreezeVal.str "1970-01-01T00:00:00.000Z") ∧
    (resolveTimeConfig dateFreezeState.config Feature.input).freezeTo
      = some (FreezeVal.date 0) ∧
    resolveTimeConfig (configure initialState
        { time := some { default := some { mode := some TimeMode.off },
                         perFeature := none } }).config Feature.input
      ≠ resolveTimeConfig initialState.config Feature.input := by
  refine ⟨by decide, by decide, by decide, by decide⟩

end MashOSProof
